import Mathlib

/-!
Verification of `src/pydm/widgets/designer_settings.py` (the PyDM designer
basic-settings editor) against its natural-language specification.

The Python module is shallowly embedded below.  Qt table widgets are modelled
by their row contents (a missing `QTableWidgetItem` is `none`); Python `dict`s
are modelled as association lists with Python 3.7+ insertion semantics
(`dictInsert`); Python exceptions are modelled with `Except Unit`.  The macro
string codec (`pydm.utilities.macro.parse_macro_string`, `json.dumps`) is an
external collaborator that is not part of `src/`, so it is modelled from the
spec as an abstract `MacroCodec` parameter.
-/

/-- Python `dict` insertion (`d[k] = v`): if the key is present its value is
replaced in place (the entry keeps its original position), otherwise the new
entry is appended.  This is CPython 3.7+ insertion-ordered `dict` semantics,
used to model both dict comprehensions and attribute stores. -/
def dictInsert {α β : Type} [DecidableEq α] (d : List (α × β)) (k : α) (v : β) :
    List (α × β) :=
  if d.any (fun p => decide (p.1 = k)) then
    d.map (fun p => if p.1 = k then (k, v) else p)
  else
    d ++ [(k, v)]

/-- Python `dict` lookup on an association list (first matching key wins;
lists built with `dictInsert` never hold a duplicate key). -/
def assocLookup {β : Type} : List (String × β) → String → Option β
  | [], _ => none
  | p :: rest, a => if p.1 = a then some p.2 else assocLookup rest a

/-- Python `str.strip` on a character list (ASCII whitespace removed from
both ends). -/
def listStrip (l : List Char) : List Char :=
  ((l.dropWhile Char.isWhitespace).reverse.dropWhile Char.isWhitespace).reverse

/-- Python `str.strip` (the identifier-and-space alphabet these strings draw
from makes ASCII whitespace sufficient). -/
def pyStrip (s : String) : String :=
  ⟨listStrip s.data⟩

/-- `DictionaryTable` (a two-column `QTableWidget`): each row is a pair of
optional cells (`self.item(row, col)` may be `None`). -/
structure DictionaryTable where
  rows : List (Option String × Option String)
deriving DecidableEq, Repr

/-- The `DictionaryTable.dictionary` property getter: read every row, taking
an absent cell as `""`; build a dict keyed by the *stripped* key text with the
*unstripped* value text, inserting rows in display order. -/
def DictionaryTable.dictionary (t : DictionaryTable) : List (String × String) :=
  let key_value_pairs :=
    t.rows.map (fun r => (r.1.getD "", r.2.getD ""))
  key_value_pairs.foldl (fun d kv => dictInsert d (pyStrip kv.1) kv.2) []

/-- The `DictionaryTable.dictionary` property setter: `setRowCount(len(dct))`
followed by `setItem` on every cell replaces the previous rows entirely, one
row per entry in the mapping's iteration order, keys and values unmodified. -/
def DictionaryTable.setDictionary (_t : DictionaryTable)
    (dct : List (String × String)) : DictionaryTable :=
  ⟨dct.map (fun kv => (some kv.1, some kv.2))⟩

/-- `DictionaryTable.__init__`: a fresh `QTableWidget` has zero rows and the
constructor assigns `self.dictionary = dictionary` (with `dct or {}`
collapsing `None` to the empty dict inside the setter). -/
def DictionaryTable.construct (dictionary : Option (List (String × String))) :
    DictionaryTable :=
  DictionaryTable.setDictionary ⟨[]⟩ (dictionary.getD [])

/-- `StringListTable` (a one-column `QTableWidget`): one optional cell per
row. -/
structure StringListTable where
  rows : List (Option String)
deriving DecidableEq, Repr

/-- The `StringListTable.values` property getter: rows whose item is `None`
are skipped; every present cell contributes its stripped text (note: a
whitespace-only cell contributes `""`, it is *not* skipped). -/
def StringListTable.values (t : StringListTable) : List String :=
  t.rows.filterMap (Option.map pyStrip)

/-- The `StringListTable.values` property setter: `setRowCount(len(values))`
plus `setItem` per row replaces the rows entirely, one row per element.  In
the claims under study the elements are already strings, so Python `str` is
the identity. -/
def StringListTable.setValues (_t : StringListTable) (vs : List String) :
    StringListTable :=
  ⟨vs.map some⟩

/-- `StringListTable.__init__`: the `values` constructor argument is read but
never assigned (line 109 of the source is the bare attribute access
`self.values`, not an assignment), so the fresh table keeps the zero rows a
new `QTableWidget` starts with. -/
def StringListTable.construct (_values : Option (List String)) :
    StringListTable :=
  ⟨[]⟩

/-! ### Presentation labels (`get_helper_label_text`) -/

/-- `[A-Z]` of the regex: an ASCII capital letter. -/
def isAsciiUpperCh (c : Char) : Bool :=
  'A' ≤ c && c ≤ 'Z'

/-- `re.sub("(.)([A-Z])", r"\1 \2", s)`: scan left to right; at a position
where some character other than a newline (`.` does not match `\n`) is
followed by a capital, emit both with a space between them and resume *after*
the pair; otherwise emit one character and advance by one. -/
def subSpaceCaps : List Char → List Char
  | [] => []
  | [c] => [c]
  | c1 :: c2 :: rest =>
    if c1 ≠ '\n' && isAsciiUpperCh c2 then
      c1 :: ' ' :: c2 :: subSpaceCaps rest
    else
      c1 :: subSpaceCaps (c2 :: rest)

/-- Python `str.capitalize`: first character upper-cased, the rest
lower-cased (ASCII, which covers property names). -/
def pyCapitalize : List Char → List Char
  | [] => []
  | c :: rest => c.toUpper :: rest.map Char.toLower

/-- `get_helper_label_text`: space out capitals, strip, capitalize. -/
def get_helper_label_text (attr : String) : String :=
  ⟨pyCapitalize (listStrip (subSpaceCaps attr.data))⟩

/-- Insert a space before *every* capital in a list (used after the first
character to express "a space before each internal capital letter"). -/
def insAll : List Char → List Char
  | [] => []
  | d :: rest => (if isAsciiUpperCh d then [' ', d] else [d]) ++ insAll rest

/-- A space before each *internal* capital letter: the first character is
never "internal", every capital after it gets a space. -/
def specInsSpaces : List Char → List Char
  | [] => []
  | c :: rest => c :: insAll rest

/-- The label derivation in the spec's words: a space before each internal
capital letter, then strip and capitalize as the rendered example requires. -/
def specLabelText (attr : String) : String :=
  ⟨pyCapitalize (listStrip (specInsSpaces attr.data))⟩

/-- No capital letter is immediately preceded by another capital or by a
newline.  Ordinary camelCase property names satisfy this; on such names the
pairwise regex scan and the spec's per-capital insertion agree. -/
def noAdjacentCaps : List Char → Bool
  | [] => true
  | [_] => true
  | c1 :: c2 :: rest =>
    (!(isAsciiUpperCh c2) || (!(isAsciiUpperCh c1) && !(decide (c1 = '\n'))))
      && noAdjacentCaps (c2 :: rest)

/-! ### Property discovery and dispatch -/

/-- The declared Qt value type of a property, as used for keys of
`_type_to_widget_` (`str`, `int`, `bool`, the string `"QStringList"`, or any
other type, which has no entry). -/
inductive PropType
  | pyStr
  | pyInt
  | pyBool
  | qStringList
  | other (tag : String)
deriving DecidableEq, Repr

/-- The editor (helper-widget) classes of the module. -/
inductive HelperCls
  | lineEdit
  | intSpinBox
  | checkbox
  | macroTable
  | stringList
  | ruleEditor
deriving DecidableEq, Repr

/-- `BasicSettingsEditor._common_attributes_`, in its (insertion-ordered)
iteration order. -/
def commonAttributes : List (String × HelperCls) :=
  [("channel", .lineEdit),
   ("display", .lineEdit),
   ("macros", .macroTable),
   ("filenames", .stringList),
   ("rules", .ruleEditor)]

/-- The keys of `_common_attributes_` in iteration order. -/
def commonAttrNames : List String :=
  commonAttributes.map Prod.fst

/-- `BasicSettingsEditor._type_to_widget_.get(prop_type, None)`. -/
def typeToWidget : PropType → Option HelperCls
  | .pyStr => some .lineEdit
  | .pyInt => some .intSpinBox
  | .pyBool => some .checkbox
  | .qStringList => some .stringList
  | .other _ => none

/-- Editor selection for one property:
`self._common_attributes_.get(attr, self._type_to_widget_.get(prop_type, None))`.
`propTy` is `getattr(prop, "type", None)`, which may itself be absent. -/
def selectHelper (attr : String) (propTy : Option PropType) : Option HelperCls :=
  match assocLookup commonAttributes attr with
  | some hc => some hc
  | none =>
    match propTy with
    | some ty => typeToWidget ty
    | none => none

/-- The reflective surface of the target widget's class:
`designable` is what `get_qt_properties` yields (the designable
`QMetaProperty` names), and `attrs` is the `getattr(type(widget), attr)`
surface — the Python class attributes, each with its optional `type`
attribute.  The two surfaces are distinct in the source and need not agree. -/
structure WidgetClass where
  designable : List String
  attrs : List (String × Option PropType)
deriving Repr

/-- A `Decidable` instance for string order that the kernel can evaluate
(Mathlib's tactic-derived instance gets stuck under `decide`); the order is
unchanged — lexicographic by code point, exactly Python's. -/
instance (priority := 1001) strDecidableLE :
    DecidableRel (fun a b : String => a ≤ b) :=
  fun a b => decidable_of_iff (a.toList ≤ b.toList) String.le_iff_toList_le.symm

/-- Python `sorted` on strings (lexicographic by code point; insertion sort is
stable like Python's sort, though string equality makes that moot). -/
def sortStrings (l : List String) : List String :=
  List.insertionSort (fun a b => a ≤ b) l

/-- The `other_attrs` list of `_create_helper_widgets`: the sorted designable
property names that are not keys of `_common_attributes_`. -/
def otherAttrs (w : WidgetClass) : List String :=
  (sortStrings w.designable).filter (fun a => decide (a ∉ commonAttrNames))

/-- The body of the `_create_helper_widgets` loop for one attribute: skip it
when `getattr(type(widget), attr, None)` is `None` (`prop is None`) or when
neither dispatch table selects an editor class; otherwise the selected class
is instantiated against this property name. -/
def dispatchEntry (w : WidgetClass) (attr : String) :
    Option (String × HelperCls) :=
  match assocLookup w.attrs attr with
  | none => none
  | some propTy => (selectHelper attr propTy).map (fun hc => (attr, hc))

/-- `_create_helper_widgets`: walk `list(_common_attributes_) + other_attrs`
and yield the selected editors in order. -/
def createHelperWidgets (w : WidgetClass) : List (String × HelperCls) :=
  (commonAttrNames ++ otherAttrs w).filterMap (dispatchEntry w)

/-- A property name for which the class lookup succeeds *and* some dispatch
table selects an editor class. -/
def recognizedIn (w : WidgetClass) (a : String) : Bool :=
  match assocLookup w.attrs a with
  | some pt => (selectHelper a pt).isSome
  | none => false

/-- The editor order in the spec's words: the well-known names the target
declares, in the fixed order of `_common_attributes_`, then the remaining
designable properties in alphabetical order. -/
def specEditorOrder (w : WidgetClass) : List String :=
  commonAttrNames.filter (fun a => decide (a ∈ w.designable))
    ++ sortStrings (w.designable.filter (fun a => decide (a ∉ commonAttrNames)))

/-! ### Target objects, editor state, session -/

/-- A Python value of the shapes this module traffics in. -/
inductive PyValue
  | vNone
  | vStr (s : String)
  | vInt (n : Int)
  | vBool (b : Bool)
  | vStrList (l : List String)
deriving DecidableEq, Repr

/-- Python truthiness (`bool(value)` / `value or default`). -/
def pyTruthy : PyValue → Bool
  | .vNone => false
  | .vStr s => !(decide (s = ""))
  | .vInt n => !(decide (n = 0))
  | .vBool b => b
  | .vStrList l => !l.isEmpty

/-- The target widget: its current property values plus which property
accessors raise (a Python property getter/setter may execute arbitrary code;
a raising accessor models exactly the failure paths the module guards). -/
structure Target where
  props : List (String × PyValue)
  raisingGetters : List String
  raisingSetters : List String
deriving DecidableEq, Repr

/-- `getattr(widget, name, None)` (source line 194): a missing attribute
yields `None`; a raising property getter propagates its exception. -/
def Target.getattrOrNone (t : Target) (name : String) : Except Unit PyValue :=
  if name ∈ t.raisingGetters then .error ()
  else .ok ((assocLookup t.props name).getD .vNone)

/-- `update_property_for_widget`: both branches (the live form window's
`cursor().setProperty` and the plain `setattr`) write the named property on
the target; a raising setter propagates. -/
def Target.updatePropertyForWidget (t : Target) (name : String) (v : PyValue) :
    Except Unit Target :=
  if name ∈ t.raisingSetters then .error ()
  else .ok ⟨dictInsert t.props name v, t.raisingGetters, t.raisingSetters⟩

/-- The abstract macro-string codec.

Modelled from the spec: `parse_macro_string` (from `pydm.utilities.macro`)
and the serialized-map encoder (`json.dumps`) are external collaborators not
present under `src/`; per spec section 6 the parser may fail with a parse
error on malformed input, and the encoder is total. -/
structure MacroCodec where
  parse : String → Except Unit (List (String × String))
  encode : List (String × String) → String

/-- The in-progress control state of each helper-widget class, with the
state a default-constructed control starts in (`defaultState` below). -/
inductive HelperState
  | checkbox (checked : Bool)
  | lineEdit (text : String)
  | intSpin (value : Int)
  | macroT (table : DictionaryTable)
  | stringsT (table : StringListTable)
  | ruleBtn
deriving DecidableEq, Repr

/-- The default-constructed state of each control: an unchecked `QCheckBox`,
an empty `QLineEdit`, a `QSpinBox` at 0, a `DictionaryTable(None)` with zero
rows, a `StringListTable()` with zero rows, and the rules push button. -/
def defaultState : HelperCls → HelperState
  | .checkbox => .checkbox false
  | .lineEdit => .lineEdit ""
  | .intSpinBox => .intSpin 0
  | .macroTable => .macroT (DictionaryTable.construct none)
  | .stringList => .stringsT (StringListTable.construct none)
  | .ruleEditor => .ruleBtn

/-- `set_value_from_widget` of each helper class, applied to the freshly
default-constructed control; an `.error` is a raised Python exception.
  * checkbox: `setChecked(bool(value))` never raises;
  * line edit: `setText(value or "")` raises on a truthy non-string;
  * int spin box: `setValue(value)` accepts ints (and bools, which are ints,
    clamped to the default `QSpinBox` range 0..99) and raises otherwise;
  * macro table: `parse_macro_string(value or "")` failures — including a
    non-string argument — are caught by the method's own `try`, leaving the
    table in its default state;
  * string list: `self.values = value or []` iterates the value, so a list
    populates one row per element, a (truthy) string populates one row per
    character, and any other truthy value raises;
  * rules button: inherits the base class's no-op. -/
def setValueFromWidget (codec : MacroCodec) :
    HelperCls → PyValue → Except Unit HelperState
  | .checkbox, v => .ok (.checkbox (pyTruthy v))
  | .lineEdit, v =>
    match (if pyTruthy v then v else .vStr "") with
    | .vStr s => .ok (.lineEdit s)
    | _ => .error ()
  | .intSpinBox, v =>
    match v with
    | .vInt n => .ok (.intSpin (min 99 (max 0 n)))
    | .vBool b => .ok (.intSpin (if b then 1 else 0))
    | _ => .error ()
  | .macroTable, v =>
    match (if pyTruthy v then v else .vStr "") with
    | .vStr s =>
      match codec.parse s with
      | .ok macros => .ok (.macroT (DictionaryTable.setDictionary ⟨[]⟩ macros))
      | .error _ => .ok (.macroT (DictionaryTable.construct none))
    | _ => .ok (.macroT (DictionaryTable.construct none))
  | .stringList, v =>
    if pyTruthy v then
      match v with
      | .vStrList l => .ok (.stringsT (StringListTable.setValues ⟨[]⟩ l))
      | .vStr s =>
        .ok (.stringsT (StringListTable.setValues ⟨[]⟩
          (s.data.map (fun c => String.mk [c]))))
      | _ => .error ()
    else
      .ok (.stringsT (StringListTable.setValues ⟨[]⟩ []))
  | .ruleEditor, _ => .ok .ruleBtn

/-- One instantiated typed property editor. -/
structure Helper where
  propertyName : String
  state : HelperState
deriving DecidableEq, Repr

/-- `_PropertyHelper.__init__`: read the property's current value from the
target (`value_from_widget`) and load it into the control
(`set_value_from_widget`); any exception in either step is caught and logged,
leaving the control default-constructed.  Construction itself never raises. -/
def initHelper (codec : MacroCodec) (t : Target) (c : HelperCls)
    (name : String) : Helper :=
  match t.getattrOrNone name >>= setValueFromWidget codec c with
  | .ok st => ⟨name, st⟩
  | .error _ => ⟨name, defaultState c⟩

/-- `saved_value` of each helper class (all concrete implementations are
total): the checkbox state, the stripped line-edit text, the spin-box value,
the encoded macro dictionary, the list values, and `None` for the rules
button (the rules sub-editor writes to the target directly). -/
def savedValue (codec : MacroCodec) : HelperState → Option PyValue
  | .checkbox b => some (.vBool b)
  | .lineEdit s => some (.vStr (pyStrip s))
  | .intSpin n => some (.vInt n)
  | .macroT tb => some (.vStr (codec.encode tb.dictionary))
  | .stringsT tb => some (.vStrList tb.values)
  | .ruleBtn => none

/-- One editing session (`BasicSettingsEditor`): the target, the helper
widgets in creation order, and the dialog outcome flags. -/
structure Session where
  target : Target
  helpers : List Helper
  accepted : Bool
  closed : Bool
deriving Repr

/-- `BasicSettingsEditor.__init__` / `setup_ui`: instantiate one helper per
pair selected by `_create_helper_widgets`; the dialog is open (neither
accepted nor closed) and the target has not been touched. -/
def openSession (codec : MacroCodec) (w : WidgetClass) (t : Target) : Session :=
  ⟨t, (createHelperWidgets w).map (fun p => initHelper codec t p.2 p.1),
   false, false⟩

/-- `cancel_changes`: `self.close()` — the dialog closes and nothing else
happens. -/
def cancel_changes (s : Session) : Session :=
  { s with closed := true }

/-- The session's view of one editor at save time: its property name and the
result of evaluating its `saved_value` property (`.error` models a raising
read; the concrete helpers of this module produce `.ok (savedValue ..)`). -/
structure EditorIface where
  name : String
  read : Except Unit (Option PyValue)

/-- `_PropertyHelper.save_settings`: evaluate `saved_value`; if it is not
`None`, write it onto the target through `update_property_for_widget`. -/
def save_settings (read : Except Unit (Option PyValue)) (t : Target)
    (name : String) : Except Unit Target :=
  match read with
  | .error e => .error e
  | .ok none => .ok t
  | .ok (some v) => t.updatePropertyForWidget name v

/-- The observable outcome of `save_changes`: the final target, the editors
whose save step was invoked (in order), whether `self.accept()` ran, and
whether an exception escaped the slot. -/
structure SaveOutcome where
  target : Target
  attempted : List String
  accepted : Bool
  raised : Bool
deriving DecidableEq, Repr

/-- `BasicSettingsEditor.save_changes`: for each helper in order, try
`helper.save_settings()`; on an exception, the `except` block logs with
`logger.exception(..., helper.saved_value)`, which *evaluates `saved_value`
again*: if the failure was in the write, that read succeeds and the loop
continues with the target unchanged, but if `saved_value` itself raises, the
logging call re-raises inside the handler and the exception escapes
`save_changes` — the remaining helpers are skipped and `self.accept()` never
runs.  After an uninterrupted loop the dialog is accepted. -/
def save_changes (t : Target) : List EditorIface → SaveOutcome
  | [] => ⟨t, [], true, false⟩
  | h :: rest =>
    match save_settings h.read t h.name with
    | .ok t2 =>
      let r := save_changes t2 rest
      ⟨r.target, h.name :: r.attempted, r.accepted, r.raised⟩
    | .error _ =>
      match h.read with
      | .ok _ =>
        let r := save_changes t rest
        ⟨r.target, h.name :: r.attempted, r.accepted, r.raised⟩
      | .error _ => ⟨t, [h.name], false, true⟩

/-! ### Spec-side definitions and concrete instances used by the claims -/

/-- The map round trip in the spec's words (claim C3): the entries
`(trim k, v)` of `m`, inserted in `m`'s iteration order with later duplicate
(post-trim) keys overwriting earlier ones, values untrimmed. -/
def specMapRoundTrip (m : List (String × String)) : List (String × String) :=
  (m.map (fun kv => (pyStrip kv.1, kv.2))).foldl
    (fun d kv => dictInsert d kv.1 kv.2) []

/-- The list round trip in the spec's words (claim C4): drop every element
that trims to the empty string, trim the rest, preserve order. -/
def specListRoundTrip (s : List String) : List String :=
  (s.filter (fun x => decide (pyStrip x ≠ ""))).map pyStrip

/-- A codec whose parser accepts everything (its details are irrelevant to
the claims it appears in). -/
def trivialCodec : MacroCodec :=
  ⟨fun _ => .ok [], fun _ => ""⟩

/-- A target whose `channel` property getter raises. -/
def failGetTarget : Target :=
  ⟨[("channel", .vStr "x")], ["channel"], []⟩

/-- A two-property target for exercising `save_changes`. -/
def c1Target : Target :=
  ⟨[("a", .vStr "old"), ("b", .vStr "old")], [], []⟩

/-- The same target but with a raising setter on property `a`. -/
def c1WriteFailTarget : Target :=
  ⟨[("a", .vStr "old"), ("b", .vStr "old")], [], ["a"]⟩

/-- Two editors whose first `saved_value` read raises. -/
def c1ReadFailEditors : List EditorIface :=
  [⟨"a", .error ()⟩, ⟨"b", .ok (some (.vStr "new"))⟩]

/-- Two editors with well-behaved reads. -/
def c1OkEditors : List EditorIface :=
  [⟨"a", .ok (some (.vStr "new"))⟩, ⟨"b", .ok (some (.vStr "new"))⟩]

/-- The spec's discovery-ordering example: a target with designable
properties `{zeta, channel, alpha, macros}`, all of declared type `str` and
all visible as class attributes. -/
def exampleWidgetClass : WidgetClass :=
  ⟨["zeta", "channel", "alpha", "macros"],
   [("zeta", some .pyStr), ("channel", some .pyStr),
    ("alpha", some .pyStr), ("macros", some .pyStr)]⟩

/-- A class whose `channel` exists as a (string-typed) class attribute but is
*not* a designable property. -/
def c7CexClass : WidgetClass :=
  ⟨[], [("channel", some .pyStr)]⟩

/-- A class with one designable property of an unrecognized declared type. -/
def c6WitClass : WidgetClass :=
  ⟨["mystery"], [("mystery", some (.other "QColor"))]⟩

/-! ## Shared lemmas -/

theorem assocLookup_some_mem {β : Type} {a : String} {b : β} :
    ∀ {l : List (String × β)}, assocLookup l a = some b → (a, b) ∈ l := by
  intro l
  induction l with
  | nil => intro h; cases h
  | cons p rest ih =>
    obtain ⟨p1, p2⟩ := p
    intro h
    simp only [assocLookup] at h
    by_cases hp : p1 = a
    · subst hp
      rw [if_pos rfl] at h
      injection h with h2
      subst h2
      exact List.mem_cons_self _ _
    · rw [if_neg hp] at h
      exact List.mem_cons_of_mem _ (ih h)

theorem mapFst_filterMap_eq_filter {β : Type} (f : String → Option (String × β))
    (p : String → Bool)
    (hf : ∀ a, (∀ x, f a = some x → x.1 = a ∧ p a = true)
             ∧ (f a = none → p a = false)) :
    ∀ l : List String, (l.filterMap f).map Prod.fst = l.filter p := by
  intro l
  induction l with
  | nil => rfl
  | cons a t ih =>
    cases h : f a with
    | none =>
      rw [List.filterMap_cons_none h, List.filter_cons, (hf a).2 h, ih]
      simp
    | some x =>
      obtain ⟨hx, hp⟩ := (hf a).1 x h
      rw [List.filterMap_cons_some h, List.filter_cons, hp]
      simp [hx, ih]

theorem dispatchEntry_fst_recognized (w : WidgetClass) (a : String) :
    (∀ x, dispatchEntry w a = some x → x.1 = a ∧ recognizedIn w a = true)
    ∧ (dispatchEntry w a = none → recognizedIn w a = false) := by
  unfold dispatchEntry recognizedIn
  cases h : assocLookup w.attrs a with
  | none => simp
  | some pt =>
    cases hs : selectHelper a pt with
    | none => simp [hs]
    | some hc =>
      constructor
      · intro x hx
        simp [hs] at hx
        simp [← hx, hs]
      · intro hx
        simp [hs] at hx

theorem mapFst_createHelperWidgets (w : WidgetClass) :
    (createHelperWidgets w).map Prod.fst
      = (commonAttrNames ++ otherAttrs w).filter (recognizedIn w) :=
  mapFst_filterMap_eq_filter (dispatchEntry w) (recognizedIn w)
    (dispatchEntry_fst_recognized w) _

theorem initHelper_propertyName (codec : MacroCodec) (t : Target)
    (c : HelperCls) (name : String) :
    (initHelper codec t c name).propertyName = name := by
  unfold initHelper
  rcases hE : t.getattrOrNone name >>= setValueFromWidget codec c with _ | _ <;>
    simp [hE]

theorem setValueFromWidget_macro_parse_fail (codec : MacroCodec) (s : String)
    (hp : codec.parse s = .error ()) :
    setValueFromWidget codec .macroTable (.vStr s)
      = .ok (.macroT (DictionaryTable.construct none)) := by
  have h1 : (if pyTruthy (PyValue.vStr s) then PyValue.vStr s else .vStr "")
      = .vStr s := by
    by_cases hs : s = ""
    · simp [pyTruthy, hs]
    · simp [pyTruthy, hs]
  simp only [setValueFromWidget, h1, hp]

/-! ## Claim theorems -/

/-- C3: on the map editor, for every prior table state and every mapping `m`,
`set value(m); get value()` yields exactly the mapping whose entries are
`(trim k, v)` for each `(k, v)` of `m`, inserted in `m`'s iteration order
with later duplicate (post-trim) keys overwriting earlier ones; values come
back untrimmed. -/
theorem c3_map_round_trip (t : DictionaryTable) (m : List (String × String)) :
    (t.setDictionary m).dictionary = specMapRoundTrip m := by
  unfold DictionaryTable.dictionary DictionaryTable.setDictionary specMapRoundTrip
  simp [List.foldl_map]

/-- C4 counterexample: the string-list round trip does *not* drop an element
that trims to the empty string — `set value([" "]); get value()` returns
`[""]`, not `[]` as the claim requires. -/
theorem c4_counterexample :
    StringListTable.values (StringListTable.setValues ⟨[]⟩ [" "]) = [""]
    ∧ StringListTable.values (StringListTable.setValues ⟨[]⟩ [" "])
        ≠ specListRoundTrip [" "] := by
  constructor
  · rfl
  · decide

/-- C4 amended: `set value(s); get value()` returns *every* element of `s`
(stringified and) trimmed, in order; nothing is dropped, because after
`set value` every row has a cell item and the getter only skips rows with no
item at all. -/
theorem c4_amended_round_trip (t : StringListTable) (s : List String) :
    (t.setValues s).values = s.map pyStrip := by
  show (s.map some).filterMap (Option.map pyStrip) = s.map pyStrip
  induction s with
  | nil => rfl
  | cons a rest ih => simp only [List.map_cons, List.filterMap_cons, Option.map_some', ih]

/-- C10: the `values` argument of the `StringListTable` constructor is
unused — for every argument the fresh table has zero rows and `get value()`
returns the empty sequence. -/
theorem c10_constructor_ignores_values (vs : Option (List String)) :
    (StringListTable.construct vs).rows = []
    ∧ (StringListTable.construct vs).values = [] :=
  ⟨rfl, rfl⟩

/-- C2: `cancel()` performs no write to any target property — for every
session, the target after `cancel_changes` is identical to the target before
the session opened (the rule-set sub-editor, which writes directly outside
the session, is external to this model and is the claim's documented
carve-out), and the dialog is closed without being accepted. -/
theorem c2_cancel_writes_nothing (codec : MacroCodec) (w : WidgetClass)
    (t : Target) :
    (cancel_changes (openSession codec w t)).target = t
    ∧ (cancel_changes (openSession codec w t)).closed = true
    ∧ (cancel_changes (openSession codec w t)).accepted = false :=
  ⟨rfl, rfl, rfl⟩

/-- C1 (code-bug evidence): with two editors where the first one's
`saved_value` read raises, `save_changes` re-raises inside its own `except`
block (the logging call evaluates `helper.saved_value` again), so the
exception escapes, the second editor is never invoked and the dialog is not
accepted — the claim's guarantee fails for read failures.  For a *write*
failure the guarantee does hold: the loop continues and the dialog is
accepted. -/
theorem c1_save_changes_behavior :
    save_changes c1Target c1ReadFailEditors = ⟨c1Target, ["a"], false, true⟩
    ∧ save_changes c1WriteFailTarget c1OkEditors
        = ⟨⟨[("a", .vStr "old"), ("b", .vStr "new")], [], ["a"]⟩,
           ["a", "b"], true, false⟩ := by
  constructor
  · rfl
  · rfl

/-- C8: editor construction never propagates a failure — if reading the
property's current value raises, or (for the macro editor) parsing it fails,
the helper is left in its default-constructed state; and session construction
always instantiates one helper per selected property, so the session opens
regardless. -/
theorem c8_construction_failures_nonfatal (codec : MacroCodec)
    (w : WidgetClass) (t : Target) (c : HelperCls) (name : String) :
    (t.getattrOrNone name = .error () →
        initHelper codec t c name = ⟨name, defaultState c⟩)
    ∧ (∀ s, t.getattrOrNone name = .ok (.vStr s) → codec.parse s = .error () →
        initHelper codec t .macroTable name = ⟨name, defaultState .macroTable⟩)
    ∧ (openSession codec w t).helpers.map Helper.propertyName
        = (createHelperWidgets w).map Prod.fst := by
  refine ⟨?_, ?_, ?_⟩
  · intro h
    unfold initHelper
    rw [h]
    rfl
  · intro s h hp
    unfold initHelper
    rw [h]
    show (match setValueFromWidget codec .macroTable (.vStr s) with
          | .ok st => Helper.mk name st
          | .error _ => ⟨name, defaultState .macroTable⟩)
        = ⟨name, defaultState .macroTable⟩
    rw [setValueFromWidget_macro_parse_fail codec s hp]
    rfl
  · show ((createHelperWidgets w).map
        (fun p => initHelper codec t p.2 p.1)).map Helper.propertyName = _
    rw [List.map_map]
    exact List.map_congr_left (fun p _ => initHelper_propertyName codec t p.2 p.1)

/-- C8 witness: a raising `channel` getter leaves the line-edit helper in its
default (empty) state. -/
theorem c8_witness :
    initHelper trivialCodec failGetTarget .lineEdit "channel"
      = ⟨"channel", defaultState .lineEdit⟩ :=
  (c8_construction_failures_nonfatal trivialCodec ⟨[], []⟩ failGetTarget
    .lineEdit "channel").1 rfl

/-- C6: editor selection consults the name-based override table before the
type-based table — a hit in `_common_attributes_` wins regardless of the
declared type, otherwise the type table decides — and a property matched by
neither table is skipped silently (it yields no editor and no error); in
particular a property named `macros` of plain string type receives the
macro-table editor, not the string editor. -/
theorem c6_dispatch_precedence :
    (∀ (attr : String) (pt : Option PropType) (hc : HelperCls),
        assocLookup commonAttributes attr = some hc →
          selectHelper attr pt = some hc)
    ∧ (∀ (attr : String) (pt : Option PropType),
        assocLookup commonAttributes attr = none →
          selectHelper attr pt
            = (match pt with | some ty => typeToWidget ty | none => none))
    ∧ (∀ (w : WidgetClass) (a : String) (pt : Option PropType),
        assocLookup w.attrs a = some pt → selectHelper a pt = none →
          a ∉ (createHelperWidgets w).map Prod.fst)
    ∧ selectHelper "macros" (some .pyStr) = some .macroTable := by
  refine ⟨?_, ?_, ?_, rfl⟩
  · intro attr pt hc h
    unfold selectHelper
    rw [h]
  · intro attr pt h
    unfold selectHelper
    rw [h]
  · intro w a pt hl hs hmem
    rw [mapFst_createHelperWidgets, List.mem_filter] at hmem
    have h2 := hmem.2
    simp [recognizedIn, hl, hs] at h2

/-- C6 witness: the name override sends a string-typed `macros` to the macro
table, and a designable property of unrecognized type yields no editor. -/
theorem c6_witness :
    selectHelper "macros" (some .pyStr) = some .macroTable
    ∧ "mystery" ∉ (createHelperWidgets c6WitClass).map Prod.fst :=
  ⟨c6_dispatch_precedence.1 "macros" (some .pyStr) .macroTable rfl,
   c6_dispatch_precedence.2.2.1 c6WitClass "mystery" (some (.other "QColor"))
     rfl rfl⟩

theorem filter_sortStrings (p : String → Bool) (l : List String) :
    (sortStrings l).filter p = sortStrings (l.filter p) :=
  @List.eq_of_perm_of_sorted String (fun a b => a ≤ b) _ _ _
    (((List.perm_insertionSort _ l).filter p).trans
      (List.perm_insertionSort _ (l.filter p)).symm)
    (List.Sorted.filter p (List.sorted_insertionSort _ l))
    (List.sorted_insertionSort _ _)

theorem recognized_eq_mem_designable (w : WidgetClass)
    (h1 : ∀ p ∈ w.attrs, p.1 ∈ w.designable)
    (h2 : ∀ a ∈ w.designable, recognizedIn w a = true)
    (a : String) :
    recognizedIn w a = decide (a ∈ w.designable) := by
  by_cases hd : a ∈ w.designable
  · rw [h2 a hd]
    simp [hd]
  · have hfalse : recognizedIn w a = false := by
      cases h : assocLookup w.attrs a with
      | none => simp [recognizedIn, h]
      | some pt => exact absurd (h1 (a, pt) (assocLookup_some_mem h)) hd
    rw [hfalse]
    simp [hd]

/-- C5: for a target whose designable properties are all visible as class
attributes and all recognized by some dispatch table (and whose class
attributes are all designable), the produced editor order is exactly: the
well-known names the target declares, in the fixed order channel, display,
macros, filenames, rules, followed by the remaining designable properties in
alphabetical order. -/
theorem c5_discovery_order (w : WidgetClass)
    (h1 : ∀ p ∈ w.attrs, p.1 ∈ w.designable)
    (h2 : ∀ a ∈ w.designable, recognizedIn w a = true) :
    (createHelperWidgets w).map Prod.fst = specEditorOrder w := by
  rw [mapFst_createHelperWidgets, List.filter_append]
  unfold specEditorOrder
  congr 1
  · exact List.filter_congr (fun a _ => recognized_eq_mem_designable w h1 h2 a)
  · unfold otherAttrs
    have hAll : ∀ a ∈ (sortStrings w.designable).filter
        (fun a => decide (a ∉ commonAttrNames)), recognizedIn w a = true := by
      intro a ha
      have hm := (List.mem_filter.mp ha).1
      rw [sortStrings, List.mem_insertionSort] at hm
      exact h2 a hm
    rw [List.filter_eq_self.mpr hAll, filter_sortStrings]

/-- C5 witness: the spec's own example — designable properties
`{zeta, channel, alpha, macros}`, all string-typed — produces the editor
order `[channel, macros, alpha, zeta]`. -/
theorem c5_witness :
    (createHelperWidgets exampleWidgetClass).map Prod.fst
        = specEditorOrder exampleWidgetClass
    ∧ (createHelperWidgets exampleWidgetClass).map Prod.fst
        = ["channel", "macros", "alpha", "zeta"] :=
  ⟨c5_discovery_order exampleWidgetClass (by decide) (by decide), by decide⟩

/-- C7 counterexample: a target class with a string-typed `channel` class
attribute that is *not* a designable property still gets a `channel` editor,
so the instantiated editor set is not the set of recognized designable
properties. -/
theorem c7_counterexample :
    "channel" ∈ (createHelperWidgets c7CexClass).map Prod.fst
    ∧ "channel" ∉ c7CexClass.designable := by
  constructor
  · decide
  · decide

/-- C7 amended: for a target class without duplicate designable names, each
property receives at most one editor, and the set of instantiated editors is
exactly the set of names that are either well-known or designable, exist as
class attributes, and are recognized by a dispatch table (so a well-known
class attribute is included even when it is not designable). -/
theorem c7_amended_editor_set (w : WidgetClass) (hnd : w.designable.Nodup) :
    ((createHelperWidgets w).map Prod.fst).Nodup
    ∧ ∀ a : String,
        (a ∈ (createHelperWidgets w).map Prod.fst
          ↔ ((a ∈ commonAttrNames ∨ a ∈ w.designable)
              ∧ recognizedIn w a = true)) := by
  constructor
  · rw [mapFst_createHelperWidgets]
    apply List.Nodup.filter
    rw [List.nodup_append]
    refine ⟨by decide, ?_, ?_⟩
    · apply List.Nodup.filter
      exact (List.perm_insertionSort _ _).nodup_iff.mpr hnd
    · intro a ha hb
      have hnotc := (List.mem_filter.mp hb).2
      simp only [decide_eq_true_eq] at hnotc
      exact hnotc ha
  · intro a
    rw [mapFst_createHelperWidgets, List.mem_filter, List.mem_append]
    unfold otherAttrs sortStrings
    simp only [List.mem_filter, List.mem_insertionSort, decide_eq_true_eq]
    constructor
    · rintro ⟨h | ⟨h, _⟩, hrec⟩
      · exact ⟨Or.inl h, hrec⟩
      · exact ⟨Or.inr h, hrec⟩
    · rintro ⟨hd, hrec⟩
      refine ⟨?_, hrec⟩
      by_cases hc : a ∈ commonAttrNames
      · exact Or.inl hc
      · rcases hd with h | h
        · exact absurd h hc
        · exact Or.inr ⟨h, hc⟩

/-- C7 witness of the amended statement, at the counterexample class. -/
theorem c7_witness :
    ((createHelperWidgets c7CexClass).map Prod.fst).Nodup
    ∧ ("channel" ∈ (createHelperWidgets c7CexClass).map Prod.fst
        ↔ (("channel" ∈ commonAttrNames ∨ "channel" ∈ c7CexClass.designable)
            ∧ recognizedIn c7CexClass "channel" = true)) :=
  ⟨(c7_amended_editor_set c7CexClass (by decide)).1,
   (c7_amended_editor_set c7CexClass (by decide)).2 "channel"⟩

theorem specInsSpaces_eq_insAll (l : List Char)
    (hl : ∀ c cs, l = c :: cs → isAsciiUpperCh c = false) :
    specInsSpaces l = insAll l := by
  cases l with
  | nil => rfl
  | cons c cs => simp [specInsSpaces, insAll, hl c cs rfl]

theorem subSpaceCaps_eq_specInsSpaces :
    ∀ l : List Char, noAdjacentCaps l = true →
      subSpaceCaps l = specInsSpaces l := by
  intro l
  induction l using subSpaceCaps.induct with
  | case1 => intro _; rfl
  | case2 c => intro _; rfl
  | case3 c1 c2 rest hcond ih =>
    intro h
    have hup : isAsciiUpperCh c2 = true := by
      have hc := hcond
      simp only [Bool.and_eq_true] at hc
      exact hc.2
    simp only [noAdjacentCaps, Bool.and_eq_true] at h
    obtain ⟨_, htail2⟩ := h
    have htail : noAdjacentCaps rest = true := by
      cases rest with
      | nil => rfl
      | cons r t =>
        simp only [noAdjacentCaps, Bool.and_eq_true] at htail2
        exact htail2.2
    have hresthead : ∀ c cs, rest = c :: cs → isAsciiUpperCh c = false := by
      intro r t hrt
      subst hrt
      simp only [noAdjacentCaps, Bool.and_eq_true, Bool.or_eq_true,
        Bool.not_eq_true'] at htail2
      rcases htail2.1 with hx | hx
      · exact hx
      · rw [hup] at hx
        exact absurd hx.1 (by decide)
    simp only [subSpaceCaps, hcond, if_true]
    rw [ih htail, specInsSpaces_eq_insAll rest hresthead]
    simp [specInsSpaces, insAll, hup]
  | case4 c1 c2 rest hcond ih =>
    intro h
    simp only [noAdjacentCaps, Bool.and_eq_true] at h
    obtain ⟨hc, htail2⟩ := h
    have hnup : isAsciiUpperCh c2 = false := by
      by_cases hu : isAsciiUpperCh c2 = true
      · exfalso
        apply hcond
        simp only [Bool.and_eq_true, hu, and_true]
        simp only [Bool.or_eq_true, Bool.and_eq_true, Bool.not_eq_true', hu] at hc
        rcases hc with hx | hx
        · exact absurd hx (by decide)
        · exact decide_eq_true (of_decide_eq_false hx.2)
      · simpa using hu
    simp only [subSpaceCaps, hcond, if_false]
    rw [ih htail2]
    simp [specInsSpaces, insAll, hnup]

/-- C9 counterexample: for the property name `ABC` the code's pairwise regex
scan renders `A bc`, while inserting a space before *each* internal capital
(the claim's derivation, capitalized as its own example requires) renders
`A b c` — the two derivations disagree. -/
theorem c9_counterexample :
    get_helper_label_text "ABC" = "A bc"
    ∧ specLabelText "ABC" = "A b c"
    ∧ get_helper_label_text "ABC" ≠ specLabelText "ABC" := by
  refine ⟨?_, ?_, ?_⟩
  · rfl
  · rfl
  · decide

/-- C9 amended: for property names in which no capital letter immediately
follows another capital (or a newline) — every ordinary camelCase name — the
label is exactly the spec's derivation: a space before each internal capital
letter, then strip and capitalize (first character upper-cased, the rest
lower-cased).  On a run of adjacent capitals the scan pairs characters and
only alternate capitals receive a space (e.g. `ABC` renders `A bc`). -/
theorem c9_amended_label (attr : String)
    (h : noAdjacentCaps attr.data = true) :
    get_helper_label_text attr = specLabelText attr := by
  unfold get_helper_label_text specLabelText
  rw [subSpaceCaps_eq_specInsSpaces attr.data h]

/-- C9 witness: the spec's own example `maxAlarmCount` satisfies the
side condition and renders `Max alarm count`. -/
theorem c9_witness :
    noAdjacentCaps "maxAlarmCount".data = true
    ∧ get_helper_label_text "maxAlarmCount" = specLabelText "maxAlarmCount"
    ∧ get_helper_label_text "maxAlarmCount" = "Max alarm count" :=
  ⟨by decide, c9_amended_label "maxAlarmCount" (by decide), by decide⟩
